import Mathlib

set_option maxRecDepth 200000

/-!
Verification of the `hvadvilduhelst` dataset loader and upload shim.

The development shallowly embeds the two source functions
`load_hygdk_dataset` (src/hvadvilduhelst/load_hygdk.py) and
`upload_to_huggingface` (src/hvadvilduhelst/upload_to_huggingface.py).

Modelling conventions:
* A JSON value is the inductive `Json`; `json_loads` models Python's
  `json.loads` on the JSON subset the dataset uses (null, booleans,
  integer numbers, strings without unicode escapes, arrays, objects).
  The model is sound on that subset: whatever it accepts, CPython's
  parser accepts with the same value, and it rejects empty /
  whitespace-only input exactly as `json.loads` does.
* A file is a pair of its name and its list of physical lines (the
  trailing newline that `for line in f` keeps is surrounding whitespace
  for `json.loads`, so lines are modelled with it already stripped).
* The filesystem is a function from paths to directory listings;
  `none` models a path that does not exist or is not a directory.
  `pathlib.Path.glob` yields nothing in that case (its selector
  returns an empty iterator when the parent is not a directory), which
  `pathGlobJsonl` reproduces.
* Raised exceptions are modelled by `Except.error`; the loader's
  per-line loop body becomes `processLine`, the loop over lines
  `processLines`, and the loop over globbed files `loadFiles`.
-/

/-- A JSON value, as produced by Python's `json.loads` on the subset of
JSON this dataset uses (numbers restricted to integers). -/
inductive Json where
  | null : Json
  | bool : Bool → Json
  | num : Int → Json
  | str : String → Json
  | arr : List Json → Json
  | obj : List (String × Json) → Json

/-- JSON whitespace characters (RFC 8259, the set `json.loads` skips). -/
def isWs (c : Char) : Bool :=
  c = ' ' || c = '\t' || c = '\n' || c = '\r'

/-- Drop leading JSON whitespace. -/
def skipWs : List Char → List Char
  | [] => []
  | c :: cs => if isWs c then skipWs cs else c :: cs

/-- Translate a single-character JSON string escape. -/
def escChar (c : Char) : Option Char :=
  if c = '"' then some '"'
  else if c = '\\' then some '\\'
  else if c = '/' then some '/'
  else if c = 'b' then some '\x08'
  else if c = 'f' then some '\x0c'
  else if c = 'n' then some '\n'
  else if c = 'r' then some '\r'
  else if c = 't' then some '\t'
  else none

/-- Parse the body of a JSON string after the opening quote, returning
the decoded string and the remaining input. -/
def parseStrAux : List Char → List Char → Option (String × List Char)
  | [], _ => none
  | c :: cs, acc =>
    if c = '"' then some (String.mk acc.reverse, cs)
    else if c = '\\' then
      match cs with
      | [] => none
      | e :: cs2 =>
        match escChar e with
        | some d => parseStrAux cs2 (d :: acc)
        | none => none
    else if c.toNat < 32 then none
    else parseStrAux cs (c :: acc)

/-- Parse a JSON integer literal (optional minus, no leading zeros, no
fraction or exponent). -/
def parseNum (cs : List Char) : Option (Json × List Char) :=
  let neg : Bool := match cs with | '-' :: _ => true | _ => false
  let cs1 : List Char := match cs with | '-' :: r => r | _ => cs
  match cs1 with
  | [] => none
  | c :: _ =>
    if !c.isDigit then none
    else
      let ds := cs1.takeWhile Char.isDigit
      let rest := cs1.dropWhile Char.isDigit
      if 1 < ds.length && ds.headD '0' = '0' then none
      else
        match rest with
        | '.' :: _ => none
        | 'e' :: _ => none
        | 'E' :: _ => none
        | _ =>
          let n : Nat := ds.foldl (fun a c => a * 10 + (c.toNat - 48)) 0
          some (Json.num (if neg then -(n : Int) else (n : Int)), rest)

/-- Parse a JSON literal (`true`, `false`, `null`) or number. -/
def parseAtom (cs : List Char) : Option (Json × List Char) :=
  match cs with
  | 't' :: 'r' :: 'u' :: 'e' :: rest => some (Json.bool true, rest)
  | 'f' :: 'a' :: 'l' :: 's' :: 'e' :: rest => some (Json.bool false, rest)
  | 'n' :: 'u' :: 'l' :: 'l' :: rest => some (Json.null, rest)
  | _ => parseNum cs

mutual

/-- Parse one JSON value; `fuel` bounds recursion depth and always
suffices when instantiated with more than the input length. -/
def parseVal : Nat → List Char → Option (Json × List Char)
  | 0, _ => none
  | fuel + 1, cs =>
    match skipWs cs with
    | [] => none
    | c :: rest =>
      if c = '\x7b' then
        match skipWs rest with
        | '\x7d' :: rest2 => some (Json.obj [], rest2)
        | rest2 => (parseMembers fuel rest2).map (fun p => (Json.obj p.1, p.2))
      else if c = '[' then
        match skipWs rest with
        | ']' :: rest2 => some (Json.arr [], rest2)
        | rest2 => (parseElems fuel rest2).map (fun p => (Json.arr p.1, p.2))
      else if c = '"' then
        (parseStrAux rest []).map (fun p => (Json.str p.1, p.2))
      else
        parseAtom (c :: rest)

/-- Parse the members of a JSON object after its opening brace,
consuming the closing brace. -/
def parseMembers : Nat → List Char → Option (List (String × Json) × List Char)
  | 0, _ => none
  | fuel + 1, cs =>
    match skipWs cs with
    | '"' :: rest =>
      match parseStrAux rest [] with
      | none => none
      | some (k, rest2) =>
        match skipWs rest2 with
        | ':' :: rest3 =>
          match parseVal fuel rest3 with
          | none => none
          | some (v, rest4) =>
            match skipWs rest4 with
            | ',' :: rest5 => (parseMembers fuel rest5).map (fun p => ((k, v) :: p.1, p.2))
            | '\x7d' :: rest5 => some ([(k, v)], rest5)
            | _ => none
        | _ => none
    | _ => none

/-- Parse the elements of a JSON array after its opening bracket,
consuming the closing bracket. -/
def parseElems : Nat → List Char → Option (List Json × List Char)
  | 0, _ => none
  | fuel + 1, cs =>
    match parseVal fuel cs with
    | none => none
    | some (v, rest) =>
      match skipWs rest with
      | ',' :: rest2 => (parseElems fuel rest2).map (fun p => (v :: p.1, p.2))
      | ']' :: rest2 => some ([v], rest2)
      | _ => none

end

/-- Model of Python's `json.loads` on one line: parse a single JSON
value, requiring only whitespace around it, else raise
`json.JSONDecodeError`. -/
def json_loads (s : String) : Except String Json :=
  match parseVal (s.length + 2) s.toList with
  | none => Except.error "JSONDecodeError: Expecting value"
  | some (v, rest) =>
    match skipWs rest with
    | [] => Except.ok v
    | _ => Except.error "JSONDecodeError: Extra data"

/-- Last-wins lookup in a JSON object's member list: Python's dict built
by `json.loads` keeps the last occurrence of a repeated key. -/
def jfind : List (String × Json) → String → Option Json
  | [], _ => none
  | (k, v) :: kvs, key =>
    match jfind kvs key with
    | some r => some r
    | none => if k = key then some v else none

/-- Model of Python's `data[key]` on a parsed JSON value: `KeyError` on
a missing key, `TypeError` when the value is not an object. -/
def pyGetItem (j : Json) (key : String) : Except String Json :=
  match j with
  | Json.obj kvs =>
    match jfind kvs key with
    | some v => Except.ok v
    | none => Except.error ("KeyError: " ++ key)
  | _ => Except.error "TypeError: value is not subscriptable by string"

/-- One produced record: the Python dict literal built in the loader's
loop body, kept as an association list to talk about its keys. -/
abbrev Entry := List (String × Json)

/-- Whether an `Except` result is a success. -/
def exIsOk : Except String α → Bool
  | Except.ok _ => true
  | Except.error _ => false

/-- The payload of a successful `Except`, defaulting on error. -/
def okD (x : Except String Entry) : Entry :=
  match x with
  | Except.ok e => e
  | Except.error _ => []

/-- Body of the loader's inner loop (load_hygdk.py lines 27-34):
`json.loads` the line, look up the three required keys, and build the
dict literal. Note the source spells the first produced key
`questions` while reading the source field `question`. -/
def processLine (category : String) (line : String) : Except String Entry :=
  match json_loads line with
  | Except.error e => Except.error e
  | Except.ok data =>
    match pyGetItem data "question" with
    | Except.error e => Except.error e
    | Except.ok q =>
      match pyGetItem data "answer_A" with
      | Except.error e => Except.error e
      | Except.ok a =>
        match pyGetItem data "answer_B" with
        | Except.error e => Except.error e
        | Except.ok b =>
          Except.ok [("questions", q), ("answer_A", a), ("answer_B", b),
                     ("category", Json.str category)]

/-- The loader's inner loop over the lines of one file: process each
line in order, propagating the first raised error. -/
def processLines (category : String) : List String → Except String (List Entry)
  | [] => Except.ok []
  | l :: ls =>
    match processLine category l with
    | Except.error e => Except.error e
    | Except.ok entry =>
      match processLines category ls with
      | Except.error e => Except.error e
      | Except.ok rest => Except.ok (entry :: rest)

/-- Whether a directory entry name matches the glob pattern `*.jsonl`
(pathlib translates the pattern through fnmatch, so any name ending in
`.jsonl` matches, hidden names included). -/
def matchesJsonl (name : String) : Bool :=
  List.isPrefixOf (".jsonl".toList.reverse) (name.toList.reverse)

/-- Model of `pathlib.Path.stem` on a name matching `*.jsonl`: the name
without its final suffix (its last six characters); the bare name
`.jsonl` has no suffix and is its own stem. -/
def stem (name : String) : String :=
  if name = ".jsonl" then name
  else String.mk (name.toList.take (name.toList.length - 6))

/-- The files of a directory listing matched by `glob("*.jsonl")`, in
listing order. -/
def globJsonl (files : List (String × List String)) : List (String × List String) :=
  files.filter (fun f => matchesJsonl f.1)

/-- Model of `Path(data_dir).glob("*.jsonl")`: a path that does not
name an existing directory yields no files (pathlib's selector returns
an empty iterator, raising nothing), otherwise the matched files in
listing order. -/
def pathGlobJsonl (fs : String → Option (List (String × List String)))
    (data_dir : String) : List (String × List String) :=
  match fs data_dir with
  | none => []
  | some files => globJsonl files

/-- The loader's outer loop: for each globbed file derive the category
from its stem, process its lines, and append the results in file order,
propagating the first raised error. -/
def loadFiles : List (String × List String) → Except String (List Entry)
  | [] => Except.ok []
  | f :: fs =>
    match processLines (stem f.1) f.2 with
    | Except.error e => Except.error e
    | Except.ok entries =>
      match loadFiles fs with
      | Except.error e => Except.error e
      | Except.ok rest => Except.ok (entries ++ rest)

/-- The hard-coded default for `data_dir` in the source. -/
def hygdkDefaultDir : String :=
  "/Users/kasperjunge/gitrepo/datasets/hvadvilduhelst/data/hygdk"

/-- Embedding of `load_hygdk_dataset(data_dir)`: glob the directory for
`*.jsonl` files and accumulate one record per line. The filesystem
snapshot is passed explicitly; the Python default argument is
`hygdkDefaultDir`. -/
def load_hygdk_dataset (fs : String → Option (List (String × List String)))
    (data_dir : String) : Except String (List Entry) :=
  loadFiles (pathGlobJsonl fs data_dir)

/-- Python truthiness test `not x` for an optional environment string:
true exactly when the variable is unset or set to the empty string. -/
def pyFalsy : Option String → Bool
  | none => true
  | some s => s = ""

/-- Embedding of `upload_to_huggingface(dataset, split)`: read the two
environment variables, raise `ValueError` if either is falsy, then
delegate transmission to `push_to_hub` (the hosted API, passed as an
explicit collaborator) and return its result unchanged. The
`Dataset.from_list` conversion and the unused `dataset_dict` are local
pure steps folded into the delegation. -/
def upload_to_huggingface (env : String → Option String)
    (push_to_hub : List Entry → String → String → String → Except String Unit)
    (dataset : List Entry) (split : String) : Except String Unit :=
  let token := env "HUGGINGFACE_TOKEN"
  let repo_id := env "HUGGINGFACE_REPO_ID"
  if pyFalsy token then
    Except.error "ValueError: HUGGINGFACE_TOKEN environment variable not set"
  else if pyFalsy repo_id then
    Except.error "ValueError: HUGGINGFACE_REPO_ID environment variable not set"
  else
    push_to_hub dataset (repo_id.getD "") (token.getD "") split

/-- Boolean test that a record carries a given category string. -/
def hasCategory (c : String) (e : Entry) : Bool :=
  match List.lookup "category" e with
  | some (Json.str s) => s == c
  | _ => false

/-! ### Concrete fixtures used to instantiate the theorems -/

/-- The single line of the spec's `mad.jsonl` example scenario. -/
def madLine : String :=
  "\x7b\"question\":\"Vil du hellere altid spise varm mad eller altid spise kold mad?\",\"answer_A\":\"Varm mad\",\"answer_B\":\"Kold mad\"\x7d"

/-- A snapshot whose directory `/data/hygdk` holds only `mad.jsonl`
with the example line. -/
def madFS : String → Option (List (String × List String)) :=
  fun p => if p = "/data/hygdk" then some [("mad.jsonl", [madLine])] else none

/-- The record the loader actually produces for the example line. -/
def madEntry : Entry :=
  [("questions", Json.str "Vil du hellere altid spise varm mad eller altid spise kold mad?"),
   ("answer_A", Json.str "Varm mad"),
   ("answer_B", Json.str "Kold mad"),
   ("category", Json.str "mad")]

/-- A well-formed line whose three required values are all JSON null. -/
def nullLine : String :=
  "\x7b\"question\":null,\"answer_A\":null,\"answer_B\":null\x7d"

/-- A snapshot whose directory holds one file with the all-null line. -/
def nullFS : String → Option (List (String × List String)) :=
  fun p => if p = "/data/hygdk" then some [("mad.jsonl", [nullLine])] else none

/-- The record the loader produces for the all-null line. -/
def nullEntry : Entry :=
  [("questions", Json.null), ("answer_A", Json.null), ("answer_B", Json.null),
   ("category", Json.str "mad")]

/-- A minimal well-formed line. -/
def goodLine : String :=
  "\x7b\"question\":\"q\",\"answer_A\":\"a\",\"answer_B\":\"b\"\x7d"

/-- A line that parses as JSON but lacks the required key `answer_B`. -/
def badLine : String :=
  "\x7b\"question\":\"q\",\"answer_A\":\"a\"\x7d"

/-- The work/family listing of the spec's category-derivation example. -/
def workFamilyFiles : List (String × List String) :=
  [("work.jsonl", [goodLine, goodLine]), ("family.jsonl", [goodLine])]

/-- A snapshot holding the work/family directory. -/
def workFamilyFS : String → Option (List (String × List String)) :=
  fun p => if p = "/data/hygdk" then some workFamilyFiles else none

/-- The count-conservation listing: 12 well-formed work lines and 7
well-formed family lines. -/
def countFiles : List (String × List String) :=
  [("work.jsonl", List.replicate 12 goodLine),
   ("family.jsonl", List.replicate 7 goodLine)]

/-- A snapshot holding the count-conservation directory. -/
def countFS : String → Option (List (String × List String)) :=
  fun p => if p = "/data/hygdk" then some countFiles else none

/-- A snapshot holding a directory with a well-formed line followed by
a line missing `answer_B`. -/
def badFS : String → Option (List (String × List String)) :=
  fun p => if p = "/data/hygdk" then some [("mad.jsonl", [goodLine, badLine])] else none

/-- A snapshot holding a directory whose only file has no matching
extension. -/
def noJsonlFS : String → Option (List (String × List String)) :=
  fun p => if p = "/data/hygdk" then some [("readme.txt", ["hello"])] else none

/-- The work/family listing enumerated in the opposite order. -/
def workFamilyFilesRev : List (String × List String) :=
  [("family.jsonl", [goodLine]), ("work.jsonl", [goodLine, goodLine])]

/-- A snapshot enumerating the work/family directory in reversed order. -/
def workFamilyFSRev : String → Option (List (String × List String)) :=
  fun p => if p = "/data/hygdk" then some workFamilyFilesRev else none

/-- A well-formed line with empty, whitespace-only, and non-string
values plus an extra ignored key. -/
def oddLine : String :=
  "\x7b\"question\":\"\",\"answer_A\":5,\"answer_B\":\" \",\"extra\":null\x7d"

/-- A snapshot holding a directory with a well-formed line followed by
a blank line. -/
def blankFS : String → Option (List (String × List String)) :=
  fun p => if p = "/data/hygdk" then some [("mad.jsonl", [goodLine, ""])] else none

/-- An environment with both upload variables set. -/
def fullEnv : String → Option String :=
  fun k => if k = "HUGGINGFACE_TOKEN" then some "tok"
    else if k = "HUGGINGFACE_REPO_ID" then some "user/repo" else none

/-- An environment lacking the token variable. -/
def noTokenEnv : String → Option String :=
  fun k => if k = "HUGGINGFACE_REPO_ID" then some "user/repo" else none

/-- A hosted-API stand-in that records its arguments in an error string,
so delegation is observable. -/
def probePush : List Entry → String → String → String → Except String Unit :=
  fun _ repo tok spl => Except.error (repo ++ ":" ++ tok ++ ":" ++ spl)

/-! ### Helper lemmas about the embedded loader -/

/-- The record chunk a single globbed file contributes, assuming its
lines all process successfully. -/
def fileChunk (f : String × List String) : List Entry :=
  f.2.map (fun l => okD (processLine (stem f.1) l))

/-- Every line of every file in a listing processes successfully. -/
def allLinesOk (fs : List (String × List String)) : Prop :=
  ∀ f ∈ fs, ∀ l ∈ f.2, exIsOk (processLine (stem f.1) l) = true

theorem exIsOk_false_iff (x : Except String α) :
    exIsOk x = false ↔ ∃ e, x = Except.error e := by
  cases x <;> simp [exIsOk]

theorem exIsOk_true_iff (x : Except String α) :
    exIsOk x = true ↔ ∃ a, x = Except.ok a := by
  cases x <;> simp [exIsOk]

theorem skipWs_eq_nil : ∀ cs : List Char, (∀ c ∈ cs, isWs c = true) → skipWs cs = []
  | [], _ => rfl
  | c :: cs, h => by
    have hc : isWs c = true := h c (List.mem_cons_self c cs)
    have ih := skipWs_eq_nil cs (fun d hd => h d (List.mem_cons_of_mem c hd))
    simp [skipWs, hc, ih]

theorem parseVal_ws (fuel : Nat) (cs : List Char) (h : ∀ c ∈ cs, isWs c = true) :
    parseVal fuel cs = none := by
  cases fuel with
  | zero => rfl
  | succ n => simp [parseVal, skipWs_eq_nil cs h]

/-- `json.loads` raises on an empty or whitespace-only line: after
skipping whitespace there is no value to parse. -/
theorem json_loads_ws (s : String) (h : ∀ c ∈ s.toList, isWs c = true) :
    json_loads s = Except.error "JSONDecodeError: Expecting value" := by
  unfold json_loads
  rw [parseVal_ws _ _ h]

/-- Inversion for the loop body: a successful `processLine` is exactly a
successful parse followed by three successful key lookups, producing the
four-key dict literal. -/
theorem processLine_ok_iff {cat l : String} {e : Entry} :
    processLine cat l = Except.ok e ↔
      ∃ d q a b, json_loads l = Except.ok d ∧
        pyGetItem d "question" = Except.ok q ∧
        pyGetItem d "answer_A" = Except.ok a ∧
        pyGetItem d "answer_B" = Except.ok b ∧
        e = [("questions", q), ("answer_A", a), ("answer_B", b),
             ("category", Json.str cat)] := by
  constructor
  · intro h
    unfold processLine at h
    split at h
    · exact Except.noConfusion h
    rename_i d hj
    split at h
    · exact Except.noConfusion h
    rename_i q hq
    split at h
    · exact Except.noConfusion h
    rename_i a ha
    split at h
    · exact Except.noConfusion h
    rename_i b hb
    exact ⟨d, q, a, b, hj, hq, ha, hb, (Except.ok.inj h).symm⟩
  · rintro ⟨d, q, a, b, hj, hq, ha, hb, he⟩
    simp [processLine, hj, hq, ha, hb, he]


/-- Inversion for the per-file loop: the lines process successfully in
order and the produced entries are one per line. -/
theorem processLines_ok_iff {cat : String} : ∀ {lines : List String} {es : List Entry},
    processLines cat lines = Except.ok es ↔
      (∀ l ∈ lines, exIsOk (processLine cat l) = true) ∧
        es = lines.map (fun l => okD (processLine cat l)) := by
  intro lines
  induction lines with
  | nil =>
    intro es
    constructor
    · intro h
      have h2 : Except.ok ([] : List Entry) = Except.ok es := h
      exact ⟨fun l hl => absurd hl (List.not_mem_nil l), (Except.ok.inj h2).symm⟩
    · rintro ⟨-, hes⟩
      subst hes
      rfl
  | cons l ls ih =>
    intro es
    constructor
    · intro h
      simp only [processLines] at h
      split at h
      · exact Except.noConfusion h
      rename_i entry hl
      split at h
      · exact Except.noConfusion h
      rename_i rest hr
      obtain ⟨hall, hes⟩ := ih.mp hr
      refine ⟨?_, ?_⟩
      · intro x hx
        rcases List.mem_cons.mp hx with hx | hx
        · subst hx; simp [hl, exIsOk]
        · exact hall x hx
      · have hcons : es = entry :: rest := (Except.ok.inj h).symm
        simp [hcons, hes, hl, okD]
    · rintro ⟨hall, hes⟩
      have hl : exIsOk (processLine cat l) = true :=
        hall l (List.mem_cons_self l ls)
      obtain ⟨entry, hentry⟩ := (exIsOk_true_iff _).mp hl
      have hrest : processLines cat ls =
          Except.ok (ls.map (fun x => okD (processLine cat x))) :=
        ih.mpr ⟨fun x hx => hall x (List.mem_cons_of_mem l hx), rfl⟩
      simp [processLines, hentry, hrest, hes, okD]

/-- Inversion for the whole loader loop: success means every line of
every file processed, and the result is the concatenation of the
per-file chunks in listing order. -/
theorem loadFiles_ok_iff : ∀ {fs : List (String × List String)} {recs : List Entry},
    loadFiles fs = Except.ok recs ↔
      allLinesOk fs ∧ recs = fs.flatMap fileChunk := by
  intro fs
  induction fs with
  | nil =>
    intro recs
    constructor
    · intro h
      have h2 : Except.ok ([] : List Entry) = Except.ok recs := h
      exact ⟨fun f hf => absurd hf (List.not_mem_nil f), (Except.ok.inj h2).symm⟩
    · rintro ⟨-, hrecs⟩
      subst hrecs
      rfl
  | cons f fs ih =>
    intro recs
    constructor
    · intro h
      simp only [loadFiles] at h
      split at h
      · exact Except.noConfusion h
      rename_i entries hf
      split at h
      · exact Except.noConfusion h
      rename_i rest hr
      obtain ⟨hall, hrest⟩ := ih.mp hr
      obtain ⟨hflines, hentries⟩ := processLines_ok_iff.mp hf
      refine ⟨?_, ?_⟩
      · intro g hg
        rcases List.mem_cons.mp hg with hg | hg
        · subst hg; exact hflines
        · exact hall g hg
      · have hcons : recs = entries ++ rest := (Except.ok.inj h).symm
        simp [hcons, hentries, hrest, fileChunk]
    · rintro ⟨hall, hrecs⟩
      have hf : processLines (stem f.1) f.2 =
          Except.ok (f.2.map (fun l => okD (processLine (stem f.1) l))) :=
        processLines_ok_iff.mpr ⟨hall f (List.mem_cons_self f fs), rfl⟩
      have hr : loadFiles fs = Except.ok (fs.flatMap fileChunk) :=
        ih.mpr ⟨fun g hg => hall g (List.mem_cons_of_mem f hg), rfl⟩
      simp [loadFiles, hf, hr, hrecs, fileChunk]

/-- Success of the loader loop is exactly well-formedness of every line. -/
theorem loadFiles_isOk_iff (fs : List (String × List String)) :
    exIsOk (loadFiles fs) = true ↔ allLinesOk fs := by
  constructor
  · intro h
    obtain ⟨recs, hrecs⟩ := (exIsOk_true_iff _).mp h
    exact (loadFiles_ok_iff.mp hrecs).1
  · intro h
    have : loadFiles fs = Except.ok (fs.flatMap fileChunk) :=
      loadFiles_ok_iff.mpr ⟨h, rfl⟩
    simp [this, exIsOk]

/-- A single bad line anywhere makes the loader loop raise. -/
theorem loadFiles_error_of_bad {fs : List (String × List String)}
    {f : String × List String} {l : String}
    (hf : f ∈ fs) (hl : l ∈ f.2)
    (hbad : exIsOk (processLine (stem f.1) l) = false) :
    ∃ e, loadFiles fs = Except.error e := by
  have hnot : ¬ allLinesOk fs := by
    intro hall
    have := hall f hf l hl
    rw [hbad] at this
    exact Bool.noConfusion this
  have : exIsOk (loadFiles fs) = false := by
    cases h : exIsOk (loadFiles fs) with
    | true => exact absurd ((loadFiles_isOk_iff fs).mp h) hnot
    | false => rfl
  exact (exIsOk_false_iff _).mp this

/-- On a directory that exists, the loader's glob is the filtered
listing. -/
theorem pathGlobJsonl_some {fs : String → Option (List (String × List String))}
    {p : String} {files : List (String × List String)} (hfs : fs p = some files) :
    pathGlobJsonl fs p = globJsonl files := by
  unfold pathGlobJsonl
  rw [hfs]

/-- Every record of a successful load is the successful processing of
some line of some globbed file. -/
theorem mem_load_shape {fs : String → Option (List (String × List String))}
    {p : String} {recs : List Entry} {e : Entry}
    (h : load_hygdk_dataset fs p = Except.ok recs) (he : e ∈ recs) :
    ∃ f ∈ pathGlobJsonl fs p, ∃ l ∈ f.2,
      processLine (stem f.1) l = Except.ok e := by
  unfold load_hygdk_dataset at h
  obtain ⟨hall, hrecs⟩ := loadFiles_ok_iff.mp h
  subst hrecs
  obtain ⟨f, hf, hef⟩ := List.mem_flatMap.mp he
  obtain ⟨l, hl, hel⟩ := List.mem_map.mp hef
  obtain ⟨e2, he2⟩ := (exIsOk_true_iff _).mp (hall f hf l hl)
  refine ⟨f, hf, l, hl, ?_⟩
  rw [he2]
  rw [he2] at hel
  simp [okD] at hel
  rw [hel]

/-- A line that fails to parse, or parses without one of the three
required keys, makes its `processLine` raise. -/
theorem processLine_isOk_false {cat l : String}
    (hbad : exIsOk (json_loads l) = false ∨
      ∃ d, json_loads l = Except.ok d ∧
        (exIsOk (pyGetItem d "question") = false ∨
         exIsOk (pyGetItem d "answer_A") = false ∨
         exIsOk (pyGetItem d "answer_B") = false)) :
    exIsOk (processLine cat l) = false := by
  cases hpl : exIsOk (processLine cat l) with
  | false => rfl
  | true =>
    exfalso
    obtain ⟨e, he⟩ := (exIsOk_true_iff _).mp hpl
    obtain ⟨d, q, a, b, hj, hq, ha, hb, -⟩ := processLine_ok_iff.mp he
    rcases hbad with hbad | ⟨d2, hd2, hbad⟩
    · rw [hj] at hbad
      simp [exIsOk] at hbad
    · rw [hj] at hd2
      cases Except.ok.inj hd2
      rcases hbad with hbad | hbad | hbad
      · rw [hq] at hbad; simp [exIsOk] at hbad
      · rw [ha] at hbad; simp [exIsOk] at hbad
      · rw [hb] at hbad; simp [exIsOk] at hbad

/-- Well-formedness of every line is invariant under re-enumeration of
the file listing. -/
theorem allLinesOk_perm {M1 M2 : List (String × List String)}
    (hp : M1.Perm M2) : allLinesOk M1 ↔ allLinesOk M2 :=
  ⟨fun h f hf => h f (hp.mem_iff.mpr hf), fun h f hf => h f (hp.mem_iff.mp hf)⟩

/-- A whitespace-only line makes `processLine` raise the JSON decode
error itself. -/
theorem processLine_ws {cat l : String} (h : ∀ c ∈ l.toList, isWs c = true) :
    processLine cat l = Except.error "JSONDecodeError: Expecting value" := by
  unfold processLine
  rw [json_loads_ws l h]

/-- If every line of a file either processes or raises one fixed error,
and some line raises it, the per-file loop raises that error. -/
theorem processLines_error_uniform {cat m₀ : String} :
    ∀ {lines : List String},
    (∃ l ∈ lines, processLine cat l = Except.error m₀) →
    (∀ l ∈ lines, exIsOk (processLine cat l) = true ∨
      processLine cat l = Except.error m₀) →
    processLines cat lines = Except.error m₀ := by
  intro lines
  induction lines with
  | nil =>
    rintro ⟨l, hl, -⟩ -
    exact absurd hl (List.not_mem_nil l)
  | cons l ls ih =>
    rintro ⟨l0, hl0, herr⟩ huni
    rcases huni l (List.mem_cons_self l ls) with hok | herr1
    · obtain ⟨e, he⟩ := (exIsOk_true_iff _).mp hok
      have hl0tail : l0 ∈ ls := by
        rcases List.mem_cons.mp hl0 with h | h
        · subst h; rw [he] at herr; exact Except.noConfusion herr
        · exact h
      have hrest : processLines cat ls = Except.error m₀ :=
        ih ⟨l0, hl0tail, herr⟩ (fun x hx => huni x (List.mem_cons_of_mem l hx))
      simp [processLines, he, hrest]
    · simp [processLines, herr1]

/-- If every line of every file either processes or raises one fixed
error, and some line raises it, the loader loop raises that error. -/
theorem loadFiles_error_uniform {m₀ : String} :
    ∀ {fs : List (String × List String)},
    (∃ f ∈ fs, ∃ l ∈ f.2, processLine (stem f.1) l = Except.error m₀) →
    (∀ f ∈ fs, ∀ l ∈ f.2, exIsOk (processLine (stem f.1) l) = true ∨
      processLine (stem f.1) l = Except.error m₀) →
    loadFiles fs = Except.error m₀ := by
  intro fs
  induction fs with
  | nil =>
    rintro ⟨f, hf, -⟩ -
    exact absurd hf (List.not_mem_nil f)
  | cons f fs ih =>
    rintro ⟨f0, hf0, hbad0⟩ huni
    by_cases hhead : ∃ l ∈ f.2, processLine (stem f.1) l = Except.error m₀
    · have hlines : processLines (stem f.1) f.2 = Except.error m₀ :=
        processLines_error_uniform hhead
          (fun x hx => huni f (List.mem_cons_self f fs) x hx)
      simp [loadFiles, hlines]
    · have hallok : ∀ x ∈ f.2, exIsOk (processLine (stem f.1) x) = true := by
        intro x hx
        rcases huni f (List.mem_cons_self f fs) x hx with h | h
        · exact h
        · exact absurd ⟨x, hx, h⟩ hhead
      have hok : processLines (stem f.1) f.2 =
          Except.ok (f.2.map (fun x => okD (processLine (stem f.1) x))) :=
        processLines_ok_iff.mpr ⟨hallok, rfl⟩
      have hf0tail : f0 ∈ fs := by
        rcases List.mem_cons.mp hf0 with h | h
        · subst h; exact absurd hbad0 hhead
        · exact h
      have hrest : loadFiles fs = Except.error m₀ :=
        ih ⟨f0, hf0tail, hbad0⟩ (fun g hg => huni g (List.mem_cons_of_mem f hg))
      simp [loadFiles, hok, hrest]

/-! ### The claims -/

/-- C1, counterexample. The claim is false on the code: the loader's
dict literal spells its first key `questions` (load_hygdk.py line 29),
so the produced record for the spec's `mad.jsonl` example has no field
`question` at all; moreover the three copied fields are whatever JSON
values the line holds, null included, so they are not always non-null. -/
theorem c1_counterexample :
    load_hygdk_dataset madFS "/data/hygdk" = Except.ok [madEntry] ∧
    List.lookup "question" madEntry = none ∧
    List.lookup "questions" madEntry =
      some (Json.str "Vil du hellere altid spise varm mad eller altid spise kold mad?") ∧
    load_hygdk_dataset nullFS "/data/hygdk" = Except.ok [nullEntry] ∧
    List.lookup "answer_A" nullEntry = some Json.null := by
  refine ⟨?_, rfl, rfl, ?_, rfl⟩
  · rfl
  · rfl

/-- C1, amended. Every record produced by the loader has exactly the
four keys `questions` (not `question`), `answer_A`, `answer_B`,
`category`, the last always a string; the `mad.jsonl` example scenario
returns exactly one record, with its question text under `questions`. -/
theorem c1_round_trip_shape :
    (∀ (fs : String → Option (List (String × List String))) (p : String)
      (recs : List Entry) (e : Entry),
      load_hygdk_dataset fs p = Except.ok recs → e ∈ recs →
      ∃ q a b c, e = [("questions", q), ("answer_A", a), ("answer_B", b),
                      ("category", Json.str c)]) ∧
    load_hygdk_dataset madFS "/data/hygdk" = Except.ok [madEntry] := by
  constructor
  · intro fs p recs e h he
    obtain ⟨f, hf, l, hl, hpl⟩ := mem_load_shape h he
    obtain ⟨d, q, a, b, -, -, -, -, hshape⟩ := processLine_ok_iff.mp hpl
    exact ⟨q, a, b, stem f.1, hshape⟩
  · rfl

/-- C1, witness: the shape theorem applied to the example scenario. -/
theorem c1_round_trip_shape_witness :
    ∃ q a b c, madEntry = [("questions", q), ("answer_A", a), ("answer_B", b),
                           ("category", Json.str c)] :=
  c1_round_trip_shape.1 madFS "/data/hygdk" [madEntry] madEntry
    c1_round_trip_shape.2 (List.mem_singleton_self madEntry)

/-- C2, counterexample. The claim is false on the code: for a path that
names no directory, `Path.glob` yields no files and raises nothing, so
the loader silently returns the empty list instead of signaling a
missing-directory error. -/
theorem c2_counterexample :
    load_hygdk_dataset (fun _ => none) "/no/such/dir" = Except.ok [] := rfl

/-- C2, amended. On a path that does not name an existing directory the
loader raises nothing and silently returns the empty sequence; detecting
the condition is left to callers (the probe script treats an empty
dataset as a reportable error after the fact). -/
theorem c2_missing_dir_silent (fs : String → Option (List (String × List String)))
    (p : String) (h : fs p = none) :
    load_hygdk_dataset fs p = Except.ok [] := by
  unfold load_hygdk_dataset pathGlobJsonl
  rw [h]
  rfl

/-- C2, witness: the amended theorem applied to a concrete missing path. -/
theorem c2_missing_dir_silent_witness :
    (fun (_ : String) => (none : Option (List (String × List String)))) "/absent" = none ∧
    load_hygdk_dataset (fun _ => none) "/absent" = Except.ok [] :=
  ⟨rfl, c2_missing_dir_silent (fun _ => none) "/absent" rfl⟩

/-- C3. The loader fails fast: if any line of any globbed file fails to
parse as JSON, or parses but lacks one of the required keys `question`,
`answer_A`, `answer_B`, the whole call raises and returns no records.
Determinism across repeated calls is definitional here: the embedded
loader is a pure function of the directory snapshot. -/
theorem c3_fail_fast (fs : String → Option (List (String × List String)))
    (p : String) (files : List (String × List String))
    (f : String × List String) (l : String)
    (hfs : fs p = some files) (hf : f ∈ globJsonl files) (hl : l ∈ f.2)
    (hbad : exIsOk (json_loads l) = false ∨
      ∃ d, json_loads l = Except.ok d ∧
        (exIsOk (pyGetItem d "question") = false ∨
         exIsOk (pyGetItem d "answer_A") = false ∨
         exIsOk (pyGetItem d "answer_B") = false)) :
    ∃ e, load_hygdk_dataset fs p = Except.error e := by
  have hpl : exIsOk (processLine (stem f.1) l) = false :=
    processLine_isOk_false hbad
  unfold load_hygdk_dataset
  rw [pathGlobJsonl_some hfs]
  exact loadFiles_error_of_bad hf hl hpl

/-- C3, witness: a directory whose file has a well-formed line followed
by a line missing `answer_B` makes the loader raise. -/
theorem c3_fail_fast_witness :
    badLine ∈ [goodLine, badLine] ∧
    ∃ e, load_hygdk_dataset badFS "/data/hygdk" = Except.error e := by
  refine ⟨by decide, ?_⟩
  exact c3_fail_fast badFS "/data/hygdk" [("mad.jsonl", [goodLine, badLine])]
    ("mad.jsonl", [goodLine, badLine]) badLine rfl (by decide) (by decide)
    (Or.inr ⟨Json.obj [("question", Json.str "q"), ("answer_A", Json.str "a")],
      rfl, Or.inr (Or.inr rfl)⟩)

/-- C4. Category derivation: a successful load is the concatenation of
per-file chunks in glob order, and every record in the chunk of a file
carries that file's stem as its `category`; hence no record has any
other category value. -/
theorem c4_category_derivation (fs : String → Option (List (String × List String)))
    (p : String) (files : List (String × List String)) (recs : List Entry)
    (hfs : fs p = some files)
    (h : load_hygdk_dataset fs p = Except.ok recs) :
    recs = (globJsonl files).flatMap fileChunk ∧
    ∀ f ∈ globJsonl files, ∀ e ∈ fileChunk f,
      List.lookup "category" e = some (Json.str (stem f.1)) := by
  unfold load_hygdk_dataset at h
  rw [pathGlobJsonl_some hfs] at h
  obtain ⟨hall, hrecs⟩ := loadFiles_ok_iff.mp h
  refine ⟨hrecs, ?_⟩
  intro f hf e he
  obtain ⟨l, hl, hel⟩ := List.mem_map.mp he
  obtain ⟨e2, he2⟩ := (exIsOk_true_iff _).mp (hall f hf l hl)
  obtain ⟨d, q, a, b, -, -, -, -, hshape⟩ := processLine_ok_iff.mp he2
  rw [he2] at hel
  simp only [okD] at hel
  rw [← hel, hshape]
  simp [List.lookup]

/-- C4, witness: the derivation theorem applied to the work/family
directory, with the category of a concrete work record read off. -/
theorem c4_category_derivation_witness :
    load_hygdk_dataset workFamilyFS "/data/hygdk" =
      Except.ok ((globJsonl workFamilyFiles).flatMap fileChunk) ∧
    List.lookup "category"
      (okD (processLine (stem "work.jsonl") goodLine)) =
      some (Json.str "work") := by
  have h : load_hygdk_dataset workFamilyFS "/data/hygdk" =
      Except.ok ((globJsonl workFamilyFiles).flatMap fileChunk) := rfl
  refine ⟨h, ?_⟩
  have h2 := (c4_category_derivation workFamilyFS "/data/hygdk" workFamilyFiles
    ((globJsonl workFamilyFiles).flatMap fileChunk) rfl h).2
  exact h2 ("work.jsonl", [goodLine, goodLine]) (by decide)
    (okD (processLine (stem "work.jsonl") goodLine)) (by simp [fileChunk])

/-- C5. Count conservation and order: when every line of every globbed
file is well-formed, the loader succeeds with exactly one record per
line, concatenated in file-then-line order, so the record count is the
total line count of the globbed files. -/
theorem c5_count_conservation (fs : String → Option (List (String × List String)))
    (p : String) (files : List (String × List String))
    (hfs : fs p = some files)
    (hok : ∀ f ∈ globJsonl files, ∀ l ∈ f.2,
      exIsOk (processLine (stem f.1) l) = true) :
    ∃ recs, load_hygdk_dataset fs p = Except.ok recs ∧
      recs = (globJsonl files).flatMap fileChunk ∧
      recs.length = ((globJsonl files).map (fun f => f.2.length)).sum := by
  refine ⟨(globJsonl files).flatMap fileChunk, ?_, rfl, ?_⟩
  · unfold load_hygdk_dataset
    rw [pathGlobJsonl_some hfs]
    exact loadFiles_ok_iff.mpr ⟨hok, rfl⟩
  · calc ((globJsonl files).flatMap fileChunk).length
        = ((globJsonl files).map (List.length ∘ fileChunk)).sum := by
          simp [List.length_flatMap]
      _ = ((globJsonl files).map (fun f => f.2.length)).sum := by
          congr 1
          exact List.map_congr_left (fun f _ => by simp [fileChunk, Function.comp])

/-- C5, witness: twelve well-formed work lines and seven family lines
load to exactly nineteen records, twelve of them tagged `work` and
seven tagged `family`. -/
theorem c5_count_conservation_witness :
    (∃ recs, load_hygdk_dataset countFS "/data/hygdk" = Except.ok recs ∧
      recs = (globJsonl countFiles).flatMap fileChunk ∧
      recs.length = ((globJsonl countFiles).map (fun f => f.2.length)).sum) ∧
    ((globJsonl countFiles).flatMap fileChunk).length = 19 ∧
    (((globJsonl countFiles).flatMap fileChunk).filter (hasCategory "work")).length = 12 ∧
    (((globJsonl countFiles).flatMap fileChunk).filter (hasCategory "family")).length = 7 := by
  refine ⟨c5_count_conservation countFS "/data/hygdk" countFiles rfl (by decide),
    ?_, ?_, ?_⟩
  · rfl
  · rfl
  · rfl

/-- C6. A directory that exists but contains no file matching `*.jsonl`
loads to the empty sequence without error. -/
theorem c6_empty_dir (fs : String → Option (List (String × List String)))
    (p : String) (files : List (String × List String))
    (hfs : fs p = some files) (hnone : globJsonl files = []) :
    load_hygdk_dataset fs p = Except.ok [] := by
  unfold load_hygdk_dataset
  rw [pathGlobJsonl_some hfs, hnone]
  rfl

/-- C6, witness: a directory holding only `readme.txt` loads to the
empty sequence. -/
theorem c6_empty_dir_witness :
    globJsonl [("readme.txt", ["hello"])] = [] ∧
    load_hygdk_dataset noJsonlFS "/data/hygdk" = Except.ok [] :=
  ⟨rfl, c6_empty_dir noJsonlFS "/data/hygdk" [("readme.txt", ["hello"])] rfl rfl⟩

/-- C7. Idempotence/determinism: two loads of the same directory
snapshot whose listings differ only in enumeration order succeed or
fail together, and on success their record lists are permutations of
each other, with the per-category groups permutations as well.
Repeating a call on the literally identical snapshot is the special
case of the identity permutation, where the results coincide exactly
because the embedded loader is a pure function. -/
theorem c7_idempotence (fs1 fs2 : String → Option (List (String × List String)))
    (p1 p2 : String) (L1 L2 : List (String × List String))
    (h1 : fs1 p1 = some L1) (h2 : fs2 p2 = some L2) (hperm : L1.Perm L2) :
    exIsOk (load_hygdk_dataset fs1 p1) = exIsOk (load_hygdk_dataset fs2 p2) ∧
    ∀ r1 r2, load_hygdk_dataset fs1 p1 = Except.ok r1 →
      load_hygdk_dataset fs2 p2 = Except.ok r2 →
      r1.Perm r2 ∧
        ∀ c, (r1.filter (hasCategory c)).Perm (r2.filter (hasCategory c)) := by
  have hpg : (globJsonl L1).Perm (globJsonl L2) := hperm.filter _
  constructor
  · unfold load_hygdk_dataset
    rw [pathGlobJsonl_some h1, pathGlobJsonl_some h2]
    have hiff : exIsOk (loadFiles (globJsonl L1)) = true ↔
        exIsOk (loadFiles (globJsonl L2)) = true :=
      (loadFiles_isOk_iff _).trans
        ((allLinesOk_perm hpg).trans (loadFiles_isOk_iff _).symm)
    cases hA : exIsOk (loadFiles (globJsonl L1)) with
    | true => exact (hiff.mp hA).symm
    | false =>
      cases hB : exIsOk (loadFiles (globJsonl L2)) with
      | true =>
        have h1t := hiff.mpr hB
        rw [hA] at h1t
        exact h1t
      | false => rfl
  · intro r1 r2 hr1 hr2
    unfold load_hygdk_dataset at hr1 hr2
    rw [pathGlobJsonl_some h1] at hr1
    rw [pathGlobJsonl_some h2] at hr2
    obtain ⟨-, e1⟩ := loadFiles_ok_iff.mp hr1
    obtain ⟨-, e2⟩ := loadFiles_ok_iff.mp hr2
    subst e1
    subst e2
    have hr : ((globJsonl L1).flatMap fileChunk).Perm
        ((globJsonl L2).flatMap fileChunk) := hpg.flatMap_right fileChunk
    exact ⟨hr, fun c => hr.filter _⟩

/-- C7, witness: the work/family directory enumerated in both orders
loads to permuted record lists. -/
theorem c7_idempotence_witness :
    exIsOk (load_hygdk_dataset workFamilyFS "/data/hygdk") =
      exIsOk (load_hygdk_dataset workFamilyFSRev "/data/hygdk") ∧
    ((globJsonl workFamilyFiles).flatMap fileChunk).Perm
      ((globJsonl workFamilyFilesRev).flatMap fileChunk) := by
  have hperm : workFamilyFiles.Perm workFamilyFilesRev := by
    unfold workFamilyFiles workFamilyFilesRev
    exact List.Perm.swap _ _ _
  have hc := c7_idempotence workFamilyFS workFamilyFSRev "/data/hygdk" "/data/hygdk"
    workFamilyFiles workFamilyFilesRev rfl rfl hperm
  exact ⟨hc.1, (hc.2 _ _ rfl rfl).1⟩

/-- C8. The remote-export shim validates both environment variables
before delegating: if either is unset or empty it raises the matching
`ValueError` with the hosted API never invoked (the result does not
depend on the API function at all), and when both are present it
returns exactly what the hosted API returns, errors propagated
verbatim. -/
theorem c8_upload_validation (env : String → Option String)
    (push push2 : List Entry → String → String → String → Except String Unit)
    (ds : List Entry) (split : String) :
    ((pyFalsy (env "HUGGINGFACE_TOKEN") = true ∨
        pyFalsy (env "HUGGINGFACE_REPO_ID") = true) →
      ∃ msg, upload_to_huggingface env push ds split = Except.error msg ∧
        upload_to_huggingface env push2 ds split = Except.error msg) ∧
    (∀ t r, env "HUGGINGFACE_TOKEN" = some t → t ≠ "" →
      env "HUGGINGFACE_REPO_ID" = some r → r ≠ "" →
      upload_to_huggingface env push ds split = push ds r t split) := by
  constructor
  · intro hmiss
    by_cases ht : pyFalsy (env "HUGGINGFACE_TOKEN") = true
    · refine ⟨"ValueError: HUGGINGFACE_TOKEN environment variable not set", ?_, ?_⟩ <;>
        simp [upload_to_huggingface, ht]
    · have ht2 : pyFalsy (env "HUGGINGFACE_TOKEN") = false := by simpa using ht
      have hr : pyFalsy (env "HUGGINGFACE_REPO_ID") = true := hmiss.resolve_left ht
      refine ⟨"ValueError: HUGGINGFACE_REPO_ID environment variable not set", ?_, ?_⟩ <;>
        simp [upload_to_huggingface, ht2, hr]
  · intro t r htok hne hrepo hrne
    simp [upload_to_huggingface, htok, hrepo, pyFalsy, hne, hrne]

/-- C8, witness: with the token unset the shim raises the token
`ValueError` whatever the API function is, and with both variables set
it returns exactly the API's result. -/
theorem c8_upload_validation_witness :
    (∃ msg, upload_to_huggingface noTokenEnv probePush [] "train" =
        Except.error msg ∧
      upload_to_huggingface noTokenEnv (fun _ _ _ _ => Except.ok ()) [] "train" =
        Except.error msg) ∧
    upload_to_huggingface fullEnv probePush [] "train" =
      probePush [] "user/repo" "tok" "train" :=
  ⟨(c8_upload_validation noTokenEnv probePush (fun _ _ _ _ => Except.ok ())
      [] "train").1 (Or.inl rfl),
   (c8_upload_validation fullEnv probePush probePush [] "train").2
      "tok" "user/repo" rfl (by decide) rfl (by decide)⟩

/-- C9. The loader performs no validation of field values: any line
that parses as JSON with the three lookups succeeding yields exactly
one record copying the three values verbatim — empty strings,
whitespace-only strings, and non-string JSON values included — with any
additional keys silently ignored (the record depends only on the three
lookups), both at the line level and through a whole load. -/
theorem c9_no_validation (fname line p : String) (d q a b : Json)
    (hmatch : matchesJsonl fname = true)
    (hj : json_loads line = Except.ok d)
    (hq : pyGetItem d "question" = Except.ok q)
    (ha : pyGetItem d "answer_A" = Except.ok a)
    (hb : pyGetItem d "answer_B" = Except.ok b) :
    processLine (stem fname) line =
      Except.ok [("questions", q), ("answer_A", a), ("answer_B", b),
                 ("category", Json.str (stem fname))] ∧
    load_hygdk_dataset (fun _ => some [(fname, [line])]) p =
      Except.ok [[("questions", q), ("answer_A", a), ("answer_B", b),
                  ("category", Json.str (stem fname))]] := by
  have hpl : processLine (stem fname) line =
      Except.ok [("questions", q), ("answer_A", a), ("answer_B", b),
                 ("category", Json.str (stem fname))] :=
    processLine_ok_iff.mpr ⟨d, q, a, b, hj, hq, ha, hb, rfl⟩
  refine ⟨hpl, ?_⟩
  unfold load_hygdk_dataset
  rw [pathGlobJsonl_some rfl]
  simp [globJsonl, matchesJsonl] at hmatch ⊢
  simp [hmatch, loadFiles, processLines, hpl]

/-- C9, witness: a line with an empty question, a numeric answer, a
whitespace-only answer, and an extra key loads as one verbatim record. -/
theorem c9_no_validation_witness :
    matchesJsonl "weird.jsonl" = true ∧
    load_hygdk_dataset (fun _ => some [("weird.jsonl", [oddLine])]) "/d" =
      Except.ok [[("questions", Json.str ""), ("answer_A", Json.num 5),
                  ("answer_B", Json.str " "),
                  ("category", Json.str (stem "weird.jsonl"))]] :=
  ⟨rfl,
   (c9_no_validation "weird.jsonl" oddLine "/d"
      (Json.obj [("question", Json.str ""), ("answer_A", Json.num 5),
                 ("answer_B", Json.str " "), ("extra", Json.null)])
      (Json.str "") (Json.num 5) (Json.str " ")
      rfl rfl rfl rfl rfl).2⟩

/-- C10. Blank lines are fatal: the loader hands every physical line,
blank ones included, to `json.loads`, so a whitespace-only line in any
globbed file makes the whole call raise the JSON decode error and
return no records even when every other line is well-formed. -/
theorem c10_blank_line_fatal (fs : String → Option (List (String × List String)))
    (p : String) (files : List (String × List String))
    (f : String × List String) (l : String)
    (hfs : fs p = some files) (hf : f ∈ globJsonl files) (hl : l ∈ f.2)
    (hws : ∀ c ∈ l.toList, isWs c = true)
    (hrest : ∀ g ∈ globJsonl files, ∀ x ∈ g.2,
      (∀ c ∈ x.toList, isWs c = true) ∨
        exIsOk (processLine (stem g.1) x) = true) :
    load_hygdk_dataset fs p = Except.error "JSONDecodeError: Expecting value" := by
  unfold load_hygdk_dataset
  rw [pathGlobJsonl_some hfs]
  apply loadFiles_error_uniform
  · exact ⟨f, hf, l, hl, processLine_ws hws⟩
  · intro g hg x hx
    rcases hrest g hg x hx with h | h
    · exact Or.inr (processLine_ws h)
    · exact Or.inl h

/-- C10, witness: a file with one well-formed line followed by an empty
line makes the loader raise the decode error. -/
theorem c10_blank_line_fatal_witness :
    ("" : String) ∈ [goodLine, ""] ∧
    load_hygdk_dataset blankFS "/data/hygdk" =
      Except.error "JSONDecodeError: Expecting value" := by
  refine ⟨by decide, ?_⟩
  exact c10_blank_line_fatal blankFS "/data/hygdk" [("mad.jsonl", [goodLine, ""])]
    ("mad.jsonl", [goodLine, ""]) "" rfl (by decide) (by decide) (by decide)
    (by decide)
